import Mathlib

/-!
Verification of the `dn` distinguished-name comparison library (RFC 5280 §7).

The comparison core (`Compare`, `parseDn`, `compareDistinguishedName`,
`compareRelativeDistinguishedName`, `findMatchedAttribute`, `removeAttribute`,
`compareAttribute`, `isComparableDirectoryString`, the three value comparators,
`toString` and `stringPrepare`) is translated directly from `dn.go`.

The two external collaborators — the ASN.1 Name Decoder (Go `encoding/asn1`)
and the RFC 4518 String Preparer (`ldapstrprep`) — are not part of the
repository; they are modelled from the spec's collaborator contracts, following
the documented behavior of Go's `encoding/asn1` decoder where the spec
delegates to it.
-/

deriving instance DecidableEq for Except

namespace DnLib

/-- Bytes of a DER encoding, each in `0 ≤ b < 256` for meaningful inputs. -/
abbrev Byte := Nat

/-- A decoded Go string, represented as its sequence of code points. -/
abbrev GoStr := List Nat

/-- Errors of the modelled ASN.1 decoding collaborator (Go `encoding/asn1`).
Each constructor stands for one distinct Go error value. -/
inductive Asn1Error where
  | truncatedTagOrLength
  | indefiniteLength
  | lengthTooLarge
  | superfluousLeadingZeros
  | nonMinimalLength
  | nonMinimalTag
  | base128TooLarge
  | base128NotMinimal
  | truncatedBase128
  | zeroLengthOid
  | tagMismatch
  | seqTagMismatch
  | dataTruncated
  | truncatedSequence
  | invalidUTF8
  | invalidPrintable
  | invalidIA5
  | invalidNumeric
  | invalidBMP
  | outOfFuel
  deriving DecidableEq, Repr

/-- Error values of the `dn` package itself (`errors.New` values in `dn.go`),
plus the wrapped collaborator errors it propagates. -/
inductive DnError where
  | emptyIssuer
  | parse (e : Asn1Error)
  | dnTrailing
  | valueDecode (e : Asn1Error)
  | stringTrailing
  | dcNotIA5
  | prohibited
  | rdnBounds
  | sliceOutOfRange
  deriving DecidableEq, Repr

/-- `attribute` from `dn.go`: its `Oid` and the `Tag`/`FullBytes` of its
`asn1.RawValue` (the only `RawValue` fields the comparison code reads). -/
structure Attr where
  oid : List Nat
  tag : Nat
  fullBytes : List Byte
  deriving DecidableEq, Repr

/-- Modelled from the spec: base-128 integer parsing of the Name Decoder
collaborator (Go `encoding/asn1.parseBase128Int`): at most five bytes, a
leading `0x80` is rejected as non-minimal, and the value must fit in 31 bits.
Returns the value and the remaining bytes. -/
def parseBase128Int (bs : List Byte) : Except Asn1Error (Nat × List Byte) :=
  go bs 0 0
where
  go : List Byte → Nat → Nat → Except Asn1Error (Nat × List Byte)
  | [], _, _ => .error .truncatedBase128
  | b :: rest, shifted, acc =>
    if shifted = 5 then .error .base128TooLarge
    else if shifted = 0 ∧ b = 0x80 then .error .base128NotMinimal
    else
      let acc' := acc * 128 + b % 128
      if b < 0x80 then
        if acc' > 0x7fffffff then .error .base128TooLarge else .ok (acc', rest)
      else go rest (shifted + 1) acc'

/-- A parsed DER tag-and-length header. -/
structure TagLen where
  cls : Nat
  isCompound : Bool
  tag : Nat
  len : Nat
  deriving DecidableEq, Repr

/-- Modelled from the spec: the length-octet loop of Go
`encoding/asn1.parseTagAndLength` (long form): `n` length bytes accumulate
big-endian, rejecting lengths ≥ 2²³, leading zero octets, and truncation. -/
def lenLoop : Nat → Nat → List Byte → Except Asn1Error (Nat × List Byte)
  | 0, acc, rest => .ok (acc, rest)
  | _ + 1, _, [] => .error .truncatedTagOrLength
  | n + 1, acc, b :: rest =>
    if acc ≥ 0x800000 then .error .lengthTooLarge
    else
      let acc' := acc * 256 + b
      if acc' = 0 then .error .superfluousLeadingZeros
      else lenLoop n acc' rest

/-- Modelled from the spec: DER tag-and-length parsing of the Name Decoder
collaborator (Go `encoding/asn1.parseTagAndLength`). High tag numbers are
parsed base-128; the long length form must be minimal and definite. Returns
the parsed header and the remaining bytes. -/
def parseTagAndLength (bs : List Byte) : Except Asn1Error (TagLen × List Byte) :=
  match bs with
  | [] => .error .truncatedTagOrLength
  | b :: rest =>
    let cls := b / 64
    let cmp := (b / 32) % 2 == 1
    let tag0 := b % 32
    match (if tag0 = 0x1f then
             match parseBase128Int rest with
             | .error e => .error e
             | .ok (t, r) =>
               if t < 0x1f then .error .nonMinimalTag else .ok (t, r)
           else (.ok (tag0, rest) : Except Asn1Error (Nat × List Byte))) with
    | .error e => .error e
    | .ok (tagNum, rest1) =>
      match rest1 with
      | [] => .error .truncatedTagOrLength
      | l :: rest2 =>
        if l < 0x80 then .ok (⟨cls, cmp, tagNum, l⟩, rest2)
        else
          let numBytes := l % 128
          if numBytes = 0 then .error .indefiniteLength
          else
            match lenLoop numBytes 0 rest2 with
            | .error e => .error e
            | .ok (len, rest3) =>
              if len < 0x80 then .error .nonMinimalLength
              else .ok (⟨cls, cmp, tagNum, len⟩, rest3)

/-- Modelled from the spec: OBJECT IDENTIFIER content parsing of the Name
Decoder collaborator (Go `encoding/asn1.parseObjectIdentifier`). The `fuel`
argument bounds the loop by the content length. -/
def oidLoop : Nat → List Byte → Except Asn1Error (List Nat)
  | _, [] => .ok []
  | 0, _ :: _ => .error .outOfFuel
  | fuel + 1, bs =>
    match parseBase128Int bs with
    | .error e => .error e
    | .ok (v, rest) =>
      match oidLoop fuel rest with
      | .error e => .error e
      | .ok others => .ok (v :: others)

/-- Modelled from the spec: OBJECT IDENTIFIER content parsing
(Go `encoding/asn1.parseObjectIdentifier`): empty contents are rejected and
the first base-128 value encodes the first two components. -/
def parseObjectIdentifier (bs : List Byte) : Except Asn1Error (List Nat) :=
  match bs with
  | [] => .error .zeroLengthOid
  | _ :: _ =>
    match parseBase128Int bs with
    | .error e => .error e
    | .ok (v, rest) =>
      let first := if v < 80 then [v / 40, v % 40] else [2, v - 80]
      match oidLoop rest.length rest with
      | .error e => .error e
      | .ok others => .ok (first ++ others)

/-- Modelled from the spec: the element-scanning pass of the Name Decoder
collaborator (Go `encoding/asn1.parseSequenceOf`): splits SEQUENCE/SET
contents into the full encodings of its elements, checking every element's
header (after Go's pretend-PrintableString tag substitution) before any
element content is parsed. -/
def splitElems (expectedTag : Nat) : Nat → List Byte → Except Asn1Error (List (List Byte))
  | _, [] => .ok []
  | 0, _ :: _ => .error .outOfFuel
  | fuel + 1, bs =>
    match parseTagAndLength bs with
    | .error e => .error e
    | .ok (t, rest) =>
      let tag := if [22, 27, 20, 12, 18, 30].contains t.tag then 19 else t.tag
      if t.cls ≠ 0 ∨ t.isCompound = false ∨ tag ≠ expectedTag then .error .seqTagMismatch
      else if t.len > rest.length then .error .truncatedSequence
      else
        let headerLen := bs.length - rest.length
        let elem := bs.take (headerLen + t.len)
        match splitElems expectedTag fuel (rest.drop t.len) with
        | .error e => .error e
        | .ok others => .ok (elem :: others)

/-- Modelled from the spec: decoding of one AttributeTypeAndValue SEQUENCE by
the Name Decoder collaborator (Go `encoding/asn1.parseField` on the
`attribute` struct): an OBJECT IDENTIFIER field followed by a `RawValue`
field capturing any one value encoding whole. As in Go's decoder, bytes
following the second field inside the SEQUENCE are ignored. -/
def parseAttr (bs : List Byte) : Except Asn1Error Attr :=
  match parseTagAndLength bs with
  | .error e => .error e
  | .ok (t, rest) =>
    if t.cls ≠ 0 ∨ t.isCompound = false ∨ t.tag ≠ 16 then .error .tagMismatch
    else if t.len > rest.length then .error .dataTruncated
    else
      let inner := rest.take t.len
      match parseTagAndLength inner with
      | .error e => .error e
      | .ok (t1, r1) =>
        if t1.cls ≠ 0 ∨ t1.isCompound = true ∨ t1.tag ≠ 6 then .error .tagMismatch
        else if t1.len > r1.length then .error .dataTruncated
        else
          match parseObjectIdentifier (r1.take t1.len) with
          | .error e => .error e
          | .ok oid =>
            let vbytes := r1.drop t1.len
            match parseTagAndLength vbytes with
            | .error e => .error e
            | .ok (t2, r2) =>
              if t2.len > r2.length then .error .dataTruncated
              else
                let full := vbytes.take (vbytes.length - r2.length + t2.len)
                .ok ⟨oid, t2.tag, full⟩

/-- Modelled from the spec: decoding of one RDN SET by the Name Decoder
collaborator: a SET header, then the scan pass over its elements, then each
AttributeTypeAndValue in order. -/
def parseRdnSet (bs : List Byte) : Except Asn1Error (List Attr) :=
  match parseTagAndLength bs with
  | .error e => .error e
  | .ok (t, rest) =>
    if t.cls ≠ 0 ∨ t.isCompound = false ∨ t.tag ≠ 17 then .error .tagMismatch
    else if t.len > rest.length then .error .dataTruncated
    else
      let inner := rest.take t.len
      match splitElems 16 inner.length inner with
      | .error e => .error e
      | .ok elems => elems.mapM parseAttr

/-- Modelled from the spec: the Name Decoder collaborator
(Go `asn1.Unmarshal` into the `dn` slice type): one SEQUENCE whose elements
are RDN SETs, returning the decoded name and all bytes after the SEQUENCE. -/
def unmarshalDnGo (bs : List Byte) :
    Except Asn1Error (List (List Attr) × List Byte) :=
  match parseTagAndLength bs with
  | .error e => .error e
  | .ok (t, rest) =>
    if t.cls ≠ 0 ∨ t.isCompound = false ∨ t.tag ≠ 16 then .error .tagMismatch
    else if t.len > rest.length then .error .dataTruncated
    else
      let inner := rest.take t.len
      match splitElems 17 inner.length inner with
      | .error e => .error e
      | .ok sets =>
        match sets.mapM parseRdnSet with
        | .error e => .error e
        | .ok rdns => .ok (rdns, rest.drop t.len)

/-- `parseDn` from `dn.go`: decode one Distinguished Name and reject
trailing bytes. -/
def parseDn (bs : List Byte) : Except DnError (List (List Attr)) :=
  match unmarshalDnGo bs with
  | .error e => .error (.parse e)
  | .ok (d, rest) => if rest = [] then .ok d else .error .dnTrailing

/-- Modelled from the spec: UTF-8 decoding of one code point, following Go
`unicode/utf8` acceptance (no overlong forms, no surrogates, at most
U+10FFFF). Returns the code point and the remaining bytes. -/
def utf8DecodeOne : List Byte → Option (Nat × List Byte)
  | [] => none
  | b0 :: rest =>
    if b0 < 0x80 then some (b0, rest)
    else if 0xc2 ≤ b0 ∧ b0 ≤ 0xdf then
      match rest with
      | b1 :: r =>
        if 0x80 ≤ b1 ∧ b1 ≤ 0xbf then some ((b0 - 0xc0) * 64 + (b1 - 0x80), r)
        else none
      | _ => none
    else if 0xe0 ≤ b0 ∧ b0 ≤ 0xef then
      match rest with
      | b1 :: b2 :: r =>
        let lo1 := if b0 = 0xe0 then 0xa0 else 0x80
        let hi1 := if b0 = 0xed then 0x9f else 0xbf
        if lo1 ≤ b1 ∧ b1 ≤ hi1 ∧ 0x80 ≤ b2 ∧ b2 ≤ 0xbf then
          some ((b0 - 0xe0) * 4096 + (b1 - 0x80) * 64 + (b2 - 0x80), r)
        else none
      | _ => none
    else if 0xf0 ≤ b0 ∧ b0 ≤ 0xf4 then
      match rest with
      | b1 :: b2 :: b3 :: r =>
        let lo1 := if b0 = 0xf0 then 0x90 else 0x80
        let hi1 := if b0 = 0xf4 then 0x8f else 0xbf
        if lo1 ≤ b1 ∧ b1 ≤ hi1 ∧ 0x80 ≤ b2 ∧ b2 ≤ 0xbf ∧ 0x80 ≤ b3 ∧ b3 ≤ 0xbf then
          some ((b0 - 0xf0) * 262144 + (b1 - 0x80) * 4096 + (b2 - 0x80) * 64 + (b3 - 0x80), r)
        else none
      | _ => none
    else none

/-- Modelled from the spec: Go `utf8.Valid` — the byte list is a sequence of
well-formed UTF-8 encodings. Fuel is the list length. -/
def utf8ValidLoop : Nat → List Byte → Bool
  | _, [] => true
  | 0, _ :: _ => false
  | fuel + 1, bs =>
    match utf8DecodeOne bs with
    | some (_, r) => utf8ValidLoop fuel r
    | none => false

/-- Go `utf8.Valid` on a byte list. -/
def utf8Valid (bs : List Byte) : Bool := utf8ValidLoop bs.length bs

/-- Modelled from the spec: decoding a Go string's bytes to code points, as
Go's rune iteration does: an invalid byte yields U+FFFD and advances one
byte. Fuel is the list length. -/
def utf8DecodeLoop : Nat → List Byte → List Nat
  | _, [] => []
  | 0, _ :: _ => []
  | fuel + 1, bs =>
    match utf8DecodeOne bs with
    | some (c, r) => c :: utf8DecodeLoop fuel r
    | none => 0xfffd :: utf8DecodeLoop fuel bs.tail

/-- Byte list to code points, with U+FFFD replacement for invalid bytes. -/
def utf8Decode (bs : List Byte) : List Nat := utf8DecodeLoop bs.length bs

/-- Modelled from the spec: Go `unicode/utf16.Decode` — surrogate pairs
combine, unpaired surrogates become U+FFFD. -/
def utf16Decode : List Nat → List Nat
  | [] => []
  | u1 :: rest =>
    if 0xd800 ≤ u1 ∧ u1 ≤ 0xdbff then
      match rest with
      | u2 :: rest2 =>
        if 0xdc00 ≤ u2 ∧ u2 ≤ 0xdfff then
          (0x10000 + (u1 - 0xd800) * 0x400 + (u2 - 0xdc00)) :: utf16Decode rest2
        else 0xfffd :: utf16Decode (u2 :: rest2)
      | [] => [0xfffd]
    else if 0xdc00 ≤ u1 ∧ u1 ≤ 0xdfff then 0xfffd :: utf16Decode rest
    else u1 :: utf16Decode rest
termination_by l => l.length
decreasing_by all_goals simp_arith

/-- Big-endian byte pairs to UTF-16 code units (Go `asn1.parseBMPString`). -/
def bmpUnits : List Byte → List Nat
  | b0 :: b1 :: rest => (b0 * 256 + b1) :: bmpUnits rest
  | _ => []

/-- Character allowed in an ASN.1 PrintableString by Go's decoder (which also
tolerates `*` and `&`). -/
def isPrintableByte (b : Byte) : Bool :=
  decide ((97 ≤ b ∧ b ≤ 122) ∨ (65 ≤ b ∧ b ≤ 90) ∨ (48 ≤ b ∧ b ≤ 57) ∨
    (39 ≤ b ∧ b ≤ 41) ∨ (43 ≤ b ∧ b ≤ 47) ∨ b = 32 ∨ b = 58 ∨ b = 61 ∨
    b = 63 ∨ b = 42 ∨ b = 38)

/-- Modelled from the spec: the ASN.1 string-decoding facility of the Name
Decoder collaborator (Go `asn1.Unmarshal` into a `string`). A universal
primitive UTF8String, PrintableString, IA5String, T61String, GeneralString,
NumericString or BMPString decodes — any other encoding is a tag mismatch.
Returns the decoded code points and the bytes after the value. -/
def unmarshalStringGo (bs : List Byte) : Except Asn1Error (GoStr × List Byte) :=
  match parseTagAndLength bs with
  | .error e => .error e
  | .ok (t, rest) =>
    let utag := if t.cls = 0 ∧ [22, 27, 20, 12, 18, 30].contains t.tag then t.tag else 19
    if t.cls ≠ 0 ∨ t.isCompound = true ∨ t.tag ≠ utag then .error .tagMismatch
    else if t.len > rest.length then .error .dataTruncated
    else
      let content := rest.take t.len
      let after := rest.drop t.len
      if utag = 19 then
        if content.all isPrintableByte then .ok (content, after)
        else .error .invalidPrintable
      else if utag = 22 then
        if content.all (· < 0x80) then .ok (content, after) else .error .invalidIA5
      else if utag = 18 then
        if content.all (fun b => decide ((48 ≤ b ∧ b ≤ 57) ∨ b = 32)) then
          .ok (content, after)
        else .error .invalidNumeric
      else if utag = 12 then
        if utf8Valid content then .ok (utf8Decode content, after)
        else .error .invalidUTF8
      else if utag = 30 then
        if content.length % 2 = 1 then .error .invalidBMP
        else .ok (utf16Decode (bmpUnits content), after)
      else
        -- T61String and GeneralString: passed through as an 8-bit string,
        -- later read as code points the way Go rune iteration would.
        .ok (utf8Decode content, after)

/-- `toString` from `dn.go`: decode one ASN.1 string value and reject
trailing bytes. -/
def toString (src : List Byte) : Except DnError GoStr :=
  match unmarshalStringGo src with
  | .error e => .error (.valueDecode e)
  | .ok (s, rest) => if rest = [] then .ok s else .error .stringTrailing

/-- Modelled from the spec: `ldapstrprep` Map step, character removal — code
points RFC 4518 maps to nothing (soft hyphen, zero-width and control
characters). -/
def mappedToNothing (c : Nat) : Bool :=
  decide (c ≤ 8 ∨ (0x0e ≤ c ∧ c ≤ 0x1f) ∨ c = 0x7f ∨ c = 0xad ∨ c = 0x200b ∨ c = 0xfeff)

/-- Modelled from the spec: `ldapstrprep` Map step, single-character mapping —
whitespace-like characters map to SPACE and, with case folding enabled,
uppercase ASCII letters fold to lowercase. -/
def mapOne (c : Nat) : Nat :=
  if c = 9 ∨ c = 0xa ∨ c = 0xb ∨ c = 0xc ∨ c = 0xd ∨ c = 0x85 ∨ c = 0xa0 then 0x20
  else if 65 ≤ c ∧ c ≤ 90 then c + 32
  else c

/-- Modelled from the spec: `ldapstrprep.MapCharacters` with case folding. -/
def mapCharacters (u : List Nat) : List Nat :=
  (u.filter (fun c => !(mappedToNothing c))).map mapOne

/-- Modelled from the spec: `ldapstrprep.Normalize` (Unicode NFKC); the
identity on the code points this development evaluates. -/
def normalizeKC (u : List Nat) : List Nat := u

/-- Modelled from the spec: RFC 4518 prohibited code points (surrogates,
the replacement character and the last two noncharacters). -/
def prohibitedChar (c : Nat) : Bool :=
  decide ((0xd800 ≤ c ∧ c ≤ 0xdfff) ∨ c = 0xfffd ∨ c = 0xfffe ∨ c = 0xffff)

/-- Modelled from the spec: `ldapstrprep.IsProhibited`. -/
def isProhibited (u : List Nat) : Bool := u.any prohibitedChar

/-- Collapses each internal run of spaces that follows `prev` to one space. -/
def squeezeSpaces : Nat → List Nat → List Nat
  | _, [] => []
  | prev, c :: rest =>
    if prev = 32 ∧ c = 32 then squeezeSpaces c rest
    else c :: squeezeSpaces c rest

/-- Modelled from the spec: `ldapstrprep.ApplyInsignificantSpaceHandling` —
leading and trailing spaces are removed and each internal run of spaces
collapses to one space. -/
def applyInsignificantSpaceHandling (u : List Nat) : List Nat :=
  let t := ((u.dropWhile (· = 32)).reverse.dropWhile (· = 32)).reverse
  match t with
  | [] => []
  | c :: rest => c :: squeezeSpaces c rest

/-- `stringPrepare` from `dn.go`: the six-step RFC 4518 pipeline delegated to
the String Preparer collaborator (Transcode, Map, Normalize, Prohibit check,
no Bidi step, Insignificant Character Handling). -/
def stringPrepare (s : GoStr) : Except DnError (List Nat) :=
  let u := s
  let u := mapCharacters u
  let u := normalizeKC u
  if isProhibited u then .error .prohibited
  else .ok (applyInsignificantSpaceHandling u)

/-- Modelled from the spec: Go `strings.EqualFold` case folding of one code
point, restricted to the ASCII range — the only strings reaching it in this
program are decoded IA5 strings, which are ASCII. -/
def foldRune (c : Nat) : Nat := if 65 ≤ c ∧ c ≤ 90 then c + 32 else c

/-- Modelled from the spec: Go `strings.EqualFold` on decoded strings. -/
def equalFold (s t : GoStr) : Bool := s.map foldRune == t.map foldRune

/-- `Oid-domainComponent` from `dn.go`. -/
def oidDomainComponent : List Nat := [0, 9, 2342, 19200300, 100, 1, 25]

/-- `isComparableDirectoryString` from `dn.go`: both tags must be
UTF8String (12) or PrintableString (19). -/
def isComparableDirectoryString (tx ty : Nat) : Bool :=
  (tx == 12 || tx == 19) && (ty == 12 || ty == 19)

/-- `compareByCaseInsensitiveExactMatch` from `dn.go`. -/
def compareByCaseInsensitiveExactMatch (s t : GoStr) : Bool := equalFold s t

/-- `compareByCaseIgnoreMatch` from `dn.go`: RFC 4517 caseIgnoreMatch after
RFC 4518 string preparation. -/
def compareByCaseIgnoreMatch (s t : GoStr) : Except DnError Bool :=
  match stringPrepare s with
  | .error e => .error e
  | .ok sr =>
    match stringPrepare t with
    | .error e => .error e
    | .ok tr => if sr = tr then .ok true else .ok false

/-- `compareByBinaryComparison` from `dn.go`: exact byte equality, with two
empty inputs (or any empty input) comparing false. -/
def compareByBinaryComparison (x y : List Byte) : Bool :=
  if x.length = 0 ∨ y.length = 0 then false
  else if x ≠ y then false
  else true

/-- `compareAttribute` from `dn.go`: the three-tier attribute value
comparison (domain component, directory string, binary fallback). -/
def compareAttribute (x y : Attr) : Except DnError Bool :=
  if x.oid ≠ y.oid then .ok false
  else
    match toString x.fullBytes with
    | .error e => .error e
    | .ok s =>
      match toString y.fullBytes with
      | .error e => .error e
      | .ok t =>
        if x.oid = oidDomainComponent ∧ y.oid = oidDomainComponent then
          if x.tag ≠ 22 ∨ y.tag ≠ 22 then .error .dcNotIA5
          else .ok (compareByCaseInsensitiveExactMatch s t)
        else if isComparableDirectoryString x.tag y.tag then
          compareByCaseIgnoreMatch s t
        else
          .ok (compareByBinaryComparison x.fullBytes y.fullBytes)

/-- `removeAttribute` from `dn.go`: remove the attribute at `index` (a Nat
here, so Go's `index < 0` half of the bounds check cannot fire). -/
def removeAttribute (index : Nat) (r : List Attr) : Except DnError (List Attr) :=
  if index ≥ r.length then .error .rdnBounds
  else .ok (r.eraseIdx index)

/-- The scanning loop of `findMatchedAttribute` from `dn.go`. The Go loop
runs `i` from 0 while `i < len(r)`; here the same loop carries the number
`n = len(r) - i` of remaining iterations so that it ends exactly when Go's
bound fails. `rest` is read by index, and an out-of-range read models Go's
runtime bounds panic (after a removal the loop breaks, so `rest` still
equals `r` at every read). -/
def fmaGo (atv : Attr) : Nat → Nat → List Attr → Except DnError (Bool × List Attr)
  | 0, _, rest => .ok (false, rest)
  | n + 1, i, rest =>
    match rest[i]? with
    | none => .error .sliceOutOfRange
    | some b =>
      match compareAttribute atv b with
      | .error e => .error e
      | .ok true =>
        match removeAttribute i rest with
        | .error e => .error e
        | .ok rest2 => .ok (true, rest2)
      | .ok false => fmaGo atv n (i + 1) rest

/-- `findMatchedAttribute` from `dn.go`. -/
def findMatchedAttribute (atv : Attr) (r : List Attr) :
    Except DnError (Bool × List Attr) :=
  fmaGo atv r.length 0 r

/-- The consume-on-match loop of `compareRelativeDistinguishedName`. -/
def crdnGo : List Attr → List Attr → Except DnError Bool
  | [], _ => .ok true
  | x :: xs, rest =>
    match findMatchedAttribute x rest with
    | .error e => .error e
    | .ok (false, _) => .ok false
    | .ok (true, rest2) => crdnGo xs rest2

/-- `compareRelativeDistinguishedName` from `dn.go`. -/
def compareRelativeDistinguishedName (xr yr : List Attr) : Except DnError Bool :=
  if xr.length ≠ yr.length then .ok false else crdnGo xr yr

/-- The positional loop of `compareDistinguishedName` (only reached on
equal-length inputs, so the uneven patterns end the loop as Go's does). -/
def cdnGo : List (List Attr) → List (List Attr) → Except DnError Bool
  | x :: xs, y :: ys =>
    match compareRelativeDistinguishedName x y with
    | .error e => .error e
    | .ok false => .ok false
    | .ok true => cdnGo xs ys
  | _, _ => .ok true

/-- `compareDistinguishedName` from `dn.go`. -/
def compareDistinguishedName (xd yd : List (List Attr)) : Except DnError Bool :=
  if xd.length ≠ yd.length then .ok false else cdnGo xd yd

/-- `Compare` from `dn.go`: the top-level entry point. -/
def Compare (issuer subject : List Byte) : Except DnError Bool :=
  if issuer.length = 0 then .error .emptyIssuer
  else if subject.length = 0 then .ok false
  else
    match parseDn issuer with
    | .error e => .error e
    | .ok i =>
      match parseDn subject with
      | .error e => .error e
      | .ok s => compareDistinguishedName i s

/-! ### Concrete values used by witnesses and counterexamples -/

/-- OID 2.5.4.10 (organizationName). -/
def oidOrganization : List Nat := [2, 5, 4, 10]

/-- OID 2.5.4.6 (countryName). -/
def oidCountry : List Nat := [2, 5, 4, 6]

/-- An organization attribute whose value is an OCTET STRING `"A"` — a tag
Go's string decoding rejects. -/
def exOctetAttr : Attr := ⟨oidOrganization, 4, [0x04, 0x01, 0x41]⟩

/-- An organization attribute whose value is a T61String `"A"` — outside the
recognized four tags but still decodable as a string. -/
def exT61Attr : Attr := ⟨oidOrganization, 20, [0x14, 0x01, 0x41]⟩

/-- A domain-component attribute whose value is an INTEGER — not an ASN.1
string at all. -/
def exDcIntAttr : Attr := ⟨oidDomainComponent, 2, [0x02, 0x01, 0x05]⟩

/-- DC=example as an IA5String. -/
def exDcExample : Attr :=
  ⟨oidDomainComponent, 22, [0x16, 0x07, 0x65, 0x78, 0x61, 0x6d, 0x70, 0x6c, 0x65]⟩

/-- DC=EXAMPLE as an IA5String. -/
def exDcEXAMPLE : Attr :=
  ⟨oidDomainComponent, 22, [0x16, 0x07, 0x45, 0x58, 0x41, 0x4d, 0x50, 0x4c, 0x45]⟩

/-- O=abc as a PrintableString (hex 1303616263). -/
def exPrintableAbc : Attr := ⟨oidOrganization, 19, [0x13, 0x03, 0x61, 0x62, 0x63]⟩

/-- O=abc as a UTF8String (hex 0C03616263). -/
def exUtf8Abc : Attr := ⟨oidOrganization, 12, [0x0c, 0x03, 0x61, 0x62, 0x63]⟩

/-- O=abc as a BMPString (hex 1E06006100620063). -/
def exBmpAbc : Attr :=
  ⟨oidOrganization, 30, [0x1e, 0x06, 0x00, 0x61, 0x00, 0x62, 0x00, 0x63]⟩

/-- C=JP as a PrintableString. -/
def exCountryJP : Attr := ⟨oidCountry, 19, [0x13, 0x02, 0x4a, 0x50]⟩

/-- An organization attribute tagged IA5String whose content byte 0x80 makes
its string decoding fail. -/
def exBrokenIa5 : Attr := ⟨oidOrganization, 22, [0x16, 0x01, 0x80]⟩

/-- DER of a well-formed DN holding one RDN with the single attribute
DC=JP encoded as a PrintableString (a domain component not tagged IA5). -/
def exDcPrintableDn : List Byte :=
  [0x30, 0x14, 0x31, 0x12, 0x30, 0x10, 0x06, 0x0a, 0x09, 0x92, 0x26, 0x89,
   0x93, 0xf2, 0x2c, 0x64, 0x01, 0x19, 0x13, 0x02, 0x4a, 0x50]

/-- DER of C=JP, CN=ABC (UTF8String) — the `hdn2` vector of the test suite. -/
def exDn2 : List Byte :=
  [0x30, 0x1b, 0x31, 0x0b, 0x30, 0x09, 0x06, 0x03, 0x55, 0x04, 0x06, 0x13,
   0x02, 0x4a, 0x50, 0x31, 0x0c, 0x30, 0x0a, 0x06, 0x03, 0x55, 0x04, 0x03,
   0x0c, 0x03, 0x41, 0x42, 0x43]

/-! ### Derived notions used by the verification -/

/-- `true` unless the result carries the rdnSET bounds error. -/
def resultNotBounds {α : Type} : Except DnError α → Bool
  | .error .rdnBounds => false
  | _ => true

/-- Boolean attribute-match relation: `compareAttribute` succeeded with
`true`. -/
def attrMatches (a b : Attr) : Bool := compareAttribute a b == .ok true

/-- Tag consistency: the stored `RawValue.Tag` equals the tag number parsed
from `FullBytes`, as holds for every attribute the Name Decoder produces. -/
def tagOk (a : Attr) : Bool :=
  match parseTagAndLength a.fullBytes with
  | .ok (t, _) => t.tag == a.tag
  | .error _ => false

/-- The pure greedy consume-on-match pairing over a boolean relation:
for each left attribute in order, consume the first matching remaining
right attribute. -/
def greedyGo (r : Attr → Attr → Bool) : List Attr → List Attr → Bool
  | [], _ => true
  | x :: xs, rest =>
    match rest.findIdx? (r x) with
    | none => false
    | some i => greedyGo r xs (rest.eraseIdx i)

/-! ### Unfolding helpers -/

/-- Once both value strings decode, `compareAttribute` is the three-tier
dispatch on the decoded strings. -/
theorem compareAttribute_ok_strings (x y : Attr) (s t : GoStr)
    (hoid : x.oid = y.oid)
    (hs : toString x.fullBytes = .ok s) (ht : toString y.fullBytes = .ok t) :
    compareAttribute x y =
      (if x.oid = oidDomainComponent ∧ y.oid = oidDomainComponent then
        if x.tag ≠ 22 ∨ y.tag ≠ 22 then .error .dcNotIA5
        else .ok (compareByCaseInsensitiveExactMatch s t)
      else if isComparableDirectoryString x.tag y.tag then
        compareByCaseIgnoreMatch s t
      else .ok (compareByBinaryComparison x.fullBytes y.fullBytes)) := by
  unfold compareAttribute
  rw [if_neg (by simp [hoid]), hs, ht]

/-! ### C6: empty issuer and empty subject -/

/-- C6: the top-level comparison with empty issuer bytes always fails with
`EmptyIssuerError` for any subject; with non-empty issuer bytes and empty
subject bytes it returns `(false, nil)` without decoding the issuer. -/
theorem c6_empty_inputs :
    (∀ s : List Byte, Compare [] s = .error .emptyIssuer) ∧
    (∀ i : List Byte, i ≠ [] → Compare i [] = .ok false) := by
  constructor
  · intro s; rfl
  · intro i hi
    unfold Compare
    rw [if_neg (by simpa [List.length_eq_zero] using hi)]
    rfl

/-- Witness for C6 at concrete inputs, the issuer `[0xff]` being unparseable
on purpose. -/
theorem c6_empty_inputs_witness :
    Compare [] [0xff] = .error .emptyIssuer ∧ Compare [0xff] [] = .ok false :=
  ⟨c6_empty_inputs.1 [0xff], c6_empty_inputs.2 [0xff] (by decide)⟩

/-! ### C8: binary fallback on empty byte sequences -/

/-- C8: under the binary-fallback comparator, an empty byte sequence matches
nothing — in particular two empty byte sequences compare `false`. -/
theorem c8_binary_empty :
    compareByBinaryComparison [] [] = false ∧
    (∀ y : List Byte, compareByBinaryComparison [] y = false) ∧
    (∀ x : List Byte, compareByBinaryComparison x [] = false) := by
  refine ⟨rfl, fun y => rfl, fun x => ?_⟩
  unfold compareByBinaryComparison
  simp

/-! ### C2: attributes with unrecognized value tags -/

/-- C2 (amended): with equal non-domain-component type identifiers and both
value tags outside {UTF8 (12), printable (19), IA5 (22), BMP (30)}, the
comparator binary-compares the full raw encodings provided both values still
decode as ASN.1 strings. -/
theorem c2_amended (x y : Attr) (s t : GoStr)
    (hoid : x.oid = y.oid) (hdc : x.oid ≠ oidDomainComponent)
    (hx : x.tag ∉ ([12, 19, 22, 30] : List Nat))
    (hy : y.tag ∉ ([12, 19, 22, 30] : List Nat))
    (hs : toString x.fullBytes = .ok s) (ht : toString y.fullBytes = .ok t) :
    compareAttribute x y = .ok (compareByBinaryComparison x.fullBytes y.fullBytes) := by
  simp only [List.mem_cons, List.not_mem_nil, or_false, not_or] at hx hy
  rw [compareAttribute_ok_strings x y s t hoid hs ht,
    if_neg (by rintro ⟨h1, -⟩; exact hdc h1),
    if_neg (by simp [isComparableDirectoryString, hx.1, hx.2.1])]

/-- C2 counterexample: two identical attributes whose value is an OCTET
STRING (tag 4, outside the recognized set) make the comparator fail with a
string-decode error instead of flowing to the binary fallback. -/
theorem c2_counterexample :
    ([12, 19, 22, 30].contains exOctetAttr.tag) = false ∧
    compareAttribute exOctetAttr exOctetAttr = .error (.valueDecode .tagMismatch) ∧
    (compareAttribute exOctetAttr exOctetAttr == .ok true) = false := by
  decide

/-- Witness for C2 (amended) at two T61String attributes. -/
theorem c2_amended_witness :
    compareAttribute exT61Attr exT61Attr =
      .ok (compareByBinaryComparison exT61Attr.fullBytes exT61Attr.fullBytes) :=
  c2_amended exT61Attr exT61Attr [0x41] [0x41] rfl (by decide) (by decide)
    (by decide) (by decide) (by decide)

/-! ### C4: the domain-component rule -/

/-- C4 (amended): when both type identifiers equal the domain-component OID
and both values decode as ASN.1 strings, the comparator fails with the
domain-component encoding error unless both values are tagged IA5String, in
which case it case-insensitively matches the decoded strings — so DC=example
matches DC=EXAMPLE. -/
theorem c4_amended :
    (∀ (x y : Attr) (s t : GoStr),
      x.oid = oidDomainComponent → y.oid = oidDomainComponent →
      toString x.fullBytes = .ok s → toString y.fullBytes = .ok t →
      compareAttribute x y =
        (if x.tag = 22 ∧ y.tag = 22
         then .ok (compareByCaseInsensitiveExactMatch s t)
         else .error .dcNotIA5)) ∧
    compareAttribute exDcExample exDcEXAMPLE = .ok true := by
  constructor
  · intro x y s t hx hy hs ht
    rw [compareAttribute_ok_strings x y s t (hx.trans hy.symm) hs ht, if_pos ⟨hx, hy⟩]
    by_cases h22 : x.tag = 22 ∧ y.tag = 22
    · rw [if_neg (by rcases h22 with ⟨h1, h2⟩; simp [h1, h2]), if_pos h22]
    · rw [if_pos (by tauto), if_neg h22]
  · decide

/-- C4 counterexample: a domain-component attribute whose value is an INTEGER
is "not tagged IA5 string", yet the comparator fails with a value-decode
error, not with the domain-component encoding error. -/
theorem c4_counterexample :
    exDcIntAttr.oid = oidDomainComponent ∧ (exDcIntAttr.tag == 22) = false ∧
    compareAttribute exDcIntAttr exDcIntAttr = .error (.valueDecode .tagMismatch) ∧
    (compareAttribute exDcIntAttr exDcIntAttr == .error .dcNotIA5) = false := by
  decide

/-- Witness for C4 (amended) at DC=example versus DC=EXAMPLE. -/
theorem c4_amended_witness :
    compareAttribute exDcExample exDcEXAMPLE =
      (if exDcExample.tag = 22 ∧ exDcEXAMPLE.tag = 22
       then .ok (compareByCaseInsensitiveExactMatch
         [0x65, 0x78, 0x61, 0x6d, 0x70, 0x6c, 0x65]
         [0x45, 0x58, 0x41, 0x4d, 0x50, 0x4c, 0x45])
       else .error .dcNotIA5) :=
  c4_amended.1 exDcExample exDcEXAMPLE _ _ rfl rfl (by decide) (by decide)

/-! ### C5: the directory-string rule -/

/-- C5: with equal non-domain-component type identifiers and both value tags
in {UTF8 (12), printable (19)}, the comparator matches exactly when the two
prepared code-point sequences are equal; concretely, printable `abc`
(1303616263) matches UTF8 `abc` (0C03616263), while BMP `abc` matches
neither. -/
theorem c5_directory_string :
    (∀ (x y : Attr) (s t : GoStr) (sr tr : List Nat),
      x.oid = y.oid → x.oid ≠ oidDomainComponent →
      isComparableDirectoryString x.tag y.tag = true →
      toString x.fullBytes = .ok s → toString y.fullBytes = .ok t →
      stringPrepare s = .ok sr → stringPrepare t = .ok tr →
      compareAttribute x y = .ok (decide (sr = tr))) ∧
    compareAttribute exPrintableAbc exUtf8Abc = .ok true ∧
    compareAttribute exPrintableAbc exBmpAbc = .ok false ∧
    compareAttribute exUtf8Abc exBmpAbc = .ok false := by
  refine ⟨?_, by decide, by decide, by decide⟩
  intro x y s t sr tr hoid hdc hcmp hs ht hsr htr
  rw [compareAttribute_ok_strings x y s t hoid hs ht,
    if_neg (by rintro ⟨h1, -⟩; exact hdc h1), if_pos hcmp]
  unfold compareByCaseIgnoreMatch
  rw [hsr, htr]
  by_cases h : sr = tr
  · simp [h]
  · simp [h]

/-- Witness for C5's general rule at the printable/UTF8 pair. -/
theorem c5_directory_string_witness :
    compareAttribute exPrintableAbc exUtf8Abc = .ok (decide (([0x61, 0x62, 0x63] : List Nat) = [0x61, 0x62, 0x63])) :=
  c5_directory_string.1 exPrintableAbc exUtf8Abc [0x61, 0x62, 0x63] [0x61, 0x62, 0x63]
    [0x61, 0x62, 0x63] [0x61, 0x62, 0x63] rfl (by decide) (by decide) (by decide)
    (by decide) (by decide) (by decide)

/-! ### C9: trailing bytes are decode errors -/

/-- C9: whenever decoding leaves trailing bytes — after the top-level Name
or after an attribute's value string — the decoding step fails, and `Compare`
propagates a name-decoding error instead of producing a boolean. -/
theorem c9_trailing :
    (∀ (b : List Byte) (d : List (List Attr)) (rest : List Byte),
      unmarshalDnGo b = .ok (d, rest) → rest ≠ [] →
      parseDn b = .error .dnTrailing) ∧
    (∀ (b : List Byte) (s : GoStr) (rest : List Byte),
      unmarshalStringGo b = .ok (s, rest) → rest ≠ [] →
      toString b = .error .stringTrailing) ∧
    (∀ (issuer subject : List Byte) (e : DnError),
      issuer ≠ [] → subject ≠ [] → parseDn issuer = .error e →
      Compare issuer subject = .error e) ∧
    (∀ (issuer subject : List Byte) (d : List (List Attr)) (e : DnError),
      issuer ≠ [] → subject ≠ [] → parseDn issuer = .ok d →
      parseDn subject = .error e → Compare issuer subject = .error e) := by
  refine ⟨?_, ?_, ?_, ?_⟩
  · intro b d rest h hne
    simp [parseDn, h, hne]
  · intro b s rest h hne
    simp [toString, h, hne]
  · intro issuer subject e hi hs hp
    simp [Compare, List.length_eq_zero, hi, hs, hp]
  · intro issuer subject d e hi hs hpi hps
    simp [Compare, List.length_eq_zero, hi, hs, hpi, hps]

/-- Witness for C9: a SEQUENCE followed by a stray byte, and a printable
string followed by a stray byte. -/
theorem c9_trailing_witness :
    parseDn [0x30, 0x00, 0xff] = .error .dnTrailing ∧
    toString [0x13, 0x01, 0x41, 0x41] = .error .stringTrailing :=
  ⟨c9_trailing.1 [0x30, 0x00, 0xff] [] [0xff] (by decide) (by decide),
   c9_trailing.2.1 [0x13, 0x01, 0x41, 0x41] [0x41] [0x41] (by decide) (by decide)⟩

/-! ### C7: positional, short-circuiting DN comparison -/

/-- The positional loop succeeds when every position matches. -/
theorem cdnGo_all_true (xd : List (List Attr)) :
    ∀ yd : List (List Attr), xd.length = yd.length →
    (∀ i, i < xd.length →
      compareRelativeDistinguishedName (xd.getD i []) (yd.getD i []) = .ok true) →
    cdnGo xd yd = .ok true := by
  induction xd with
  | nil => intro yd _ _; rfl
  | cons x xs ih =>
    intro yd hlen hall
    cases yd with
    | nil => simp at hlen
    | cons y ys =>
      have h0 := hall 0 (Nat.succ_pos _)
      simp only [List.getD_cons_zero] at h0
      unfold cdnGo
      rw [h0]
      exact ih ys (by simpa using hlen)
        (fun i hi => by simpa using hall (i + 1) (Nat.succ_lt_succ hi))

/-- The positional loop surfaces the first non-true position's result. -/
theorem cdnGo_first_bad (xd : List (List Attr)) :
    ∀ (yd : List (List Attr)) (j : Nat) (res : Except DnError Bool),
    j < xd.length → j < yd.length → res ≠ .ok true →
    (∀ i, i < j →
      compareRelativeDistinguishedName (xd.getD i []) (yd.getD i []) = .ok true) →
    compareRelativeDistinguishedName (xd.getD j []) (yd.getD j []) = res →
    cdnGo xd yd = res := by
  induction xd with
  | nil => intro yd j res hj; exact absurd hj (Nat.not_lt_zero j)
  | cons x xs ih =>
    intro yd j res hj hj' hres hpre hbad
    cases yd with
    | nil => exact absurd hj' (Nat.not_lt_zero j)
    | cons y ys =>
      cases j with
      | zero =>
        simp only [List.getD_cons_zero] at hbad
        unfold cdnGo
        rw [hbad]
        cases res with
        | error e => rfl
        | ok b =>
          cases b
          · rfl
          · exact absurd rfl hres
      | succ j =>
        have h0 := hpre 0 (Nat.succ_pos _)
        simp only [List.getD_cons_zero] at h0
        unfold cdnGo
        rw [h0]
        exact ih ys j res (Nat.lt_of_succ_lt_succ hj) (Nat.lt_of_succ_lt_succ hj')
          hres (fun i hi => by simpa using hpre (i + 1) (Nat.succ_lt_succ hi))
          (by simpa using hbad)

/-- C7: the DN matcher returns `(false, nil)` on length mismatch; otherwise
it compares RDNs pairwise by position, the first position returning an error
or `false` short-circuits with that result, and it returns `true` only when
every position matches. -/
theorem c7_positional :
    (∀ xd yd : List (List Attr), xd.length ≠ yd.length →
      compareDistinguishedName xd yd = .ok false) ∧
    (∀ xd yd : List (List Attr), xd.length = yd.length →
      (∀ i, i < xd.length →
        compareRelativeDistinguishedName (xd.getD i []) (yd.getD i []) = .ok true) →
      compareDistinguishedName xd yd = .ok true) ∧
    (∀ (xd yd : List (List Attr)) (j : Nat) (e : DnError),
      xd.length = yd.length → j < xd.length →
      (∀ i, i < j →
        compareRelativeDistinguishedName (xd.getD i []) (yd.getD i []) = .ok true) →
      compareRelativeDistinguishedName (xd.getD j []) (yd.getD j []) = .error e →
      compareDistinguishedName xd yd = .error e) ∧
    (∀ (xd yd : List (List Attr)) (j : Nat),
      xd.length = yd.length → j < xd.length →
      (∀ i, i < j →
        compareRelativeDistinguishedName (xd.getD i []) (yd.getD i []) = .ok true) →
      compareRelativeDistinguishedName (xd.getD j []) (yd.getD j []) = .ok false →
      compareDistinguishedName xd yd = .ok false) := by
  refine ⟨?_, ?_, ?_, ?_⟩
  · intro xd yd h
    unfold compareDistinguishedName
    rw [if_pos h]
  · intro xd yd h hall
    unfold compareDistinguishedName
    rw [if_neg (by simp [h])]
    exact cdnGo_all_true xd yd h hall
  · intro xd yd j e hlen hj hpre hbad
    unfold compareDistinguishedName
    rw [if_neg (by simp [hlen])]
    exact cdnGo_first_bad xd yd j (.error e) hj (hlen ▸ hj) (by simp) hpre hbad
  · intro xd yd j hlen hj hpre hbad
    unfold compareDistinguishedName
    rw [if_neg (by simp [hlen])]
    exact cdnGo_first_bad xd yd j (.ok false) hj (hlen ▸ hj) (by simp) hpre hbad

/-- Witness for C7, one concrete instance per conjunct. -/
theorem c7_positional_witness :
    compareDistinguishedName [[exPrintableAbc]] [] = .ok false ∧
    compareDistinguishedName [[exPrintableAbc]] [[exPrintableAbc]] = .ok true ∧
    compareDistinguishedName [[exBrokenIa5]] [[exBrokenIa5]] =
      .error (.valueDecode .invalidIA5) ∧
    compareDistinguishedName [[exPrintableAbc]] [[exCountryJP]] = .ok false :=
  ⟨c7_positional.1 [[exPrintableAbc]] [] (by decide),
   c7_positional.2.1 [[exPrintableAbc]] [[exPrintableAbc]] (by decide) (by decide),
   c7_positional.2.2.1 [[exBrokenIa5]] [[exBrokenIa5]] 0 (.valueDecode .invalidIA5)
     (by decide) (by decide) (by decide) (by decide),
   c7_positional.2.2.2 [[exPrintableAbc]] [[exCountryJP]] 0
     (by decide) (by decide) (by decide) (by decide)⟩

/-! ### C1: reflexivity -/

/-- Removing the head attribute succeeds and leaves the tail. -/
theorem removeAttribute_zero_cons (x : Attr) (xs : List Attr) :
    removeAttribute 0 (x :: xs) = .ok xs := by
  unfold removeAttribute
  rw [if_neg (by simp)]
  simp

/-- A self-matching attribute is found at once at the head of the scan. -/
theorem fma_head_match (x : Attr) (xs : List Attr)
    (hx : compareAttribute x x = .ok true) :
    findMatchedAttribute x (x :: xs) = .ok (true, xs) := by
  show fmaGo x (xs.length + 1) 0 (x :: xs) = .ok (true, xs)
  unfold fmaGo
  simp only [List.getElem?_cons_zero]
  rw [hx, removeAttribute_zero_cons]

/-- The greedy loop run on an RDN against itself succeeds when each of its
attributes matches itself. -/
theorem crdnGo_refl (l : List Attr)
    (h : ∀ a ∈ l, compareAttribute a a = .ok true) :
    crdnGo l l = .ok true := by
  induction l with
  | nil => rfl
  | cons x xs ih =>
    unfold crdnGo
    rw [fma_head_match x xs (h x (List.mem_cons_self x xs))]
    exact ih (fun a ha => h a (List.mem_cons_of_mem x ha))

/-- `compareDistinguishedName` is reflexive on DNs whose attributes each
match themselves. -/
theorem cdn_refl (d : List (List Attr))
    (h : ∀ r ∈ d, ∀ a ∈ r, compareAttribute a a = .ok true) :
    compareDistinguishedName d d = .ok true := by
  unfold compareDistinguishedName
  rw [if_neg (by simp)]
  induction d with
  | nil => rfl
  | cons r rs ih =>
    unfold cdnGo
    have hr : compareRelativeDistinguishedName r r = .ok true := by
      unfold compareRelativeDistinguishedName
      rw [if_neg (by simp)]
      exact crdnGo_refl r (h r (List.mem_cons_self r rs))
    rw [hr]
    exact ih (fun r' hr' => h r' (List.mem_cons_of_mem r hr'))

/-- C1 (amended): the top-level comparison is reflexive on every well-formed
non-empty DN each of whose attributes matches itself without error. -/
theorem c1_amended (x : List Byte) (d : List (List Attr))
    (hx : x ≠ []) (hparse : parseDn x = .ok d)
    (hrefl : ∀ r ∈ d, ∀ a ∈ r, compareAttribute a a = .ok true) :
    Compare x x = .ok true := by
  unfold Compare
  rw [if_neg (by simpa [List.length_eq_zero] using hx),
    if_neg (by simpa [List.length_eq_zero] using hx), hparse]
  exact cdn_refl d hrefl

/-- C1 counterexample: a well-formed non-empty DN holding DC=JP as a
PrintableString decodes successfully, yet comparing it with itself returns
the domain-component encoding error, not `(true, nil)`. -/
theorem c1_counterexample :
    (exDcPrintableDn == ([] : List Byte)) = false ∧
    parseDn exDcPrintableDn =
      .ok [[⟨oidDomainComponent, 19, [0x13, 0x02, 0x4a, 0x50]⟩]] ∧
    Compare exDcPrintableDn exDcPrintableDn = .error .dcNotIA5 ∧
    (Compare exDcPrintableDn exDcPrintableDn == .ok true) = false := by
  decide

/-- Witness for C1 (amended) at the C=JP, CN=ABC test vector. -/
theorem c1_amended_witness : Compare exDn2 exDn2 = .ok true :=
  c1_amended exDn2
    [[⟨oidCountry, 19, [0x13, 0x02, 0x4a, 0x50]⟩],
     [⟨[2, 5, 4, 3], 12, [0x0c, 0x03, 0x41, 0x42, 0x43]⟩]]
    (by decide) (by decide) (by decide)

/-! ### C10: the rdnSET bounds error is unreachable -/

/-- On errors, `resultNotBounds` does not depend on the value type. -/
theorem resultNotBounds_error (α : Type) (e : DnError) :
    resultNotBounds (Except.error e : Except DnError α) =
      resultNotBounds (Except.error e : Except DnError Bool) := by
  cases e <;> rfl

/-- `toString` only fails with a value-decode or trailing-data error. -/
theorem toString_error_shape (bs : List Byte) (e : DnError)
    (h : toString bs = .error e) :
    e = .stringTrailing ∨ ∃ a, e = .valueDecode a := by
  unfold toString at h
  cases hu : unmarshalStringGo bs with
  | error a =>
    rw [hu] at h
    injection h with h'
    exact Or.inr ⟨a, h'.symm⟩
  | ok p =>
    obtain ⟨s, rest⟩ := p
    simp only [hu] at h
    split at h
    · simp at h
    · injection h with h'
      exact Or.inl h'.symm

/-- `stringPrepare` only fails with the prohibited-character error. -/
theorem stringPrepare_error_shape (s : GoStr) (e : DnError)
    (h : stringPrepare s = .error e) : e = .prohibited := by
  simp only [stringPrepare] at h
  split at h
  · injection h with h'
    exact h'.symm
  · simp at h

/-- `compareAttribute` never fails with the rdnSET bounds error. -/
theorem compareAttribute_not_bounds (x y : Attr) :
    resultNotBounds (compareAttribute x y) = true := by
  unfold compareAttribute
  split
  · rfl
  · split
    · next e hs =>
      rcases toString_error_shape _ _ hs with h | ⟨a, h⟩ <;> subst h <;> rfl
    · next s hs =>
      split
      · next e ht =>
        rcases toString_error_shape _ _ ht with h | ⟨a, h⟩ <;> subst h <;> rfl
      · next t ht =>
        split
        · split
          · rfl
          · rfl
        · split
          · unfold compareByCaseIgnoreMatch
            split
            · next e hp => rw [stringPrepare_error_shape _ _ hp]; rfl
            · next sr hp =>
              split
              · next e hq => rw [stringPrepare_error_shape _ _ hq]; rfl
              · next tr hq => split <;> rfl
          · rfl

/-- The scanning loop never produces the rdnSET bounds error: the only call
to `removeAttribute` is guarded by a successful index read. -/
theorem fmaGo_not_bounds (atv : Attr) :
    ∀ (n i : Nat) (rest : List Attr),
    resultNotBounds (fmaGo atv n i rest) = true := by
  intro n
  induction n with
  | zero => intro i rest; rfl
  | succ n ih =>
    intro i rest
    unfold fmaGo
    split
    · rfl
    · next b hidx =>
      split
      · next e hc =>
        have hb := compareAttribute_not_bounds atv b
        rw [hc] at hb
        rw [resultNotBounds_error]
        exact hb
      · next hc =>
        split
        · next e hrm =>
          have hlt : i < rest.length := by
            by_contra hge
            push_neg at hge
            rw [List.getElem?_eq_none hge] at hidx
            exact absurd hidx (by simp)
          unfold removeAttribute at hrm
          rw [if_neg (by omega)] at hrm
          exact absurd hrm (by simp)
        · next => rfl
      · next hc => exact ih (i + 1) rest

/-- The greedy RDN loop never produces the rdnSET bounds error. -/
theorem crdnGo_not_bounds (xs : List Attr) :
    ∀ rest : List Attr, resultNotBounds (crdnGo xs rest) = true := by
  induction xs with
  | nil => intro rest; rfl
  | cons x xs ih =>
    intro rest
    unfold crdnGo
    split
    · next e hf =>
      have hb := fmaGo_not_bounds x rest.length 0 rest
      unfold findMatchedAttribute at hf
      rw [hf, resultNotBounds_error] at hb
      rw [resultNotBounds_error]
      exact hb
    · rfl
    · next rest2 hf => exact ih rest2

/-- The RDN matcher never produces the rdnSET bounds error. -/
theorem crdn_not_bounds (xr yr : List Attr) :
    resultNotBounds (compareRelativeDistinguishedName xr yr) = true := by
  unfold compareRelativeDistinguishedName
  split
  · rfl
  · exact crdnGo_not_bounds xr yr

/-- The positional DN loop never produces the rdnSET bounds error. -/
theorem cdnGo_not_bounds (xd : List (List Attr)) :
    ∀ yd : List (List Attr), resultNotBounds (cdnGo xd yd) = true := by
  induction xd with
  | nil => intro yd; rfl
  | cons x xs ih =>
    intro yd
    cases yd with
    | nil => rfl
    | cons y ys =>
      unfold cdnGo
      split
      · next e hr =>
        have hb := crdn_not_bounds x y
        rw [hr] at hb
        exact hb
      · rfl
      · exact ih ys

/-- The DN matcher never produces the rdnSET bounds error. -/
theorem cdn_not_bounds (xd yd : List (List Attr)) :
    resultNotBounds (compareDistinguishedName xd yd) = true := by
  unfold compareDistinguishedName
  split
  · rfl
  · exact cdnGo_not_bounds xd yd

/-- `parseDn` only fails with a wrapped decode error or the trailing-data
error. -/
theorem parseDn_error_shape (bs : List Byte) (e : DnError)
    (h : parseDn bs = .error e) : e = .dnTrailing ∨ ∃ a, e = .parse a := by
  unfold parseDn at h
  split at h
  · next a heq =>
    injection h with h'
    exact Or.inr ⟨a, h'.symm⟩
  · next p heq =>
    split at h
    · simp at h
    · injection h with h'
      exact Or.inl h'.symm

/-- C10: neither `findMatchedAttribute` nor the top-level comparison can
return the "rdnSET bounds out of range" error — every `removeAttribute` call
made from the scan passes an in-range index. -/
theorem c10_no_bounds_error :
    (∀ (atv : Attr) (r : List Attr),
      resultNotBounds (findMatchedAttribute atv r) = true) ∧
    (∀ issuer subject : List Byte,
      resultNotBounds (Compare issuer subject) = true) := by
  constructor
  · intro atv r
    exact fmaGo_not_bounds atv r.length 0 r
  · intro issuer subject
    unfold Compare
    split
    · rfl
    · split
      · rfl
      · split
        · next e hp =>
          rcases parseDn_error_shape _ _ hp with h | ⟨a, h⟩ <;> subst h <;> rfl
        · next di hp =>
          split
          · next e hq =>
            rcases parseDn_error_shape _ _ hq with h | ⟨a, h⟩ <;> subst h <;> rfl
          · next ds hq => exact cdn_not_bounds di ds

/-! ### C3: permutation of attributes within one RDN -/

/-- A successful binary comparison means equal, non-empty encodings. -/
theorem binary_true_elim (x y : List Byte)
    (h : compareByBinaryComparison x y = true) : x = y ∧ x ≠ [] := by
  unfold compareByBinaryComparison at h
  split at h
  · simp at h
  · next hlen =>
    split at h
    · simp at h
    · next hne =>
      push_neg at hne
      refine ⟨hne, ?_⟩
      intro hx
      exact hlen (Or.inl (by simp [hx]))

/-- Binary comparison is reflexive on non-empty encodings. -/
theorem binary_refl (x : List Byte) (hx : x ≠ []) :
    compareByBinaryComparison x x = true := by
  unfold compareByBinaryComparison
  rw [if_neg (by simp [List.length_eq_zero, hx]), if_neg (by simp)]

/-- Tag-consistent attributes with equal encodings carry equal tags. -/
theorem tagOk_eq_tag (a b : Attr) (ha : tagOk a = true) (hb : tagOk b = true)
    (hfb : a.fullBytes = b.fullBytes) : a.tag = b.tag := by
  unfold tagOk at ha hb
  rw [hfb] at ha
  cases hp : parseTagAndLength b.fullBytes with
  | error e => rw [hp] at ha; simp at ha
  | ok p =>
    obtain ⟨t, rest⟩ := p
    rw [hp] at ha hb
    simp only [beq_iff_eq] at ha hb
    omega

/-- Eliminating a successful attribute match into the three value-comparison
tiers (the branch conditions of `compareAttribute`). -/
theorem cA_true_elim (x y : Attr) (h : compareAttribute x y = .ok true) :
    x.oid = y.oid ∧ ∃ s t, toString x.fullBytes = .ok s ∧
      toString y.fullBytes = .ok t ∧
      ((x.oid = oidDomainComponent ∧ y.oid = oidDomainComponent ∧
          x.tag = 22 ∧ y.tag = 22 ∧ compareByCaseInsensitiveExactMatch s t = true) ∨
       (¬(x.oid = oidDomainComponent ∧ y.oid = oidDomainComponent) ∧
          isComparableDirectoryString x.tag y.tag = true ∧
          ∃ u, stringPrepare s = .ok u ∧ stringPrepare t = .ok u) ∨
       (¬(x.oid = oidDomainComponent ∧ y.oid = oidDomainComponent) ∧
          isComparableDirectoryString x.tag y.tag = false ∧
          compareByBinaryComparison x.fullBytes y.fullBytes = true)) := by
  unfold compareAttribute at h
  split at h
  · simp at h
  · next hoid =>
    push_neg at hoid
    refine ⟨hoid, ?_⟩
    split at h
    · simp at h
    · next s hs =>
      split at h
      · simp at h
      · next t ht =>
        refine ⟨s, t, hs, ht, ?_⟩
        split at h
        · next hdc =>
          split at h
          · simp at h
          · next htags =>
            push_neg at htags
            injection h with h'
            exact Or.inl ⟨hdc.1, hdc.2, htags.1, htags.2, h'⟩
        · next hdc =>
          split at h
          · next hcmp =>
            unfold compareByCaseIgnoreMatch at h
            split at h
            · simp at h
            · next sr hsr =>
              split at h
              · simp at h
              · next tr htr =>
                split at h
                · next hst =>
                  exact Or.inr (Or.inl ⟨hdc, hcmp, sr, hsr, by rw [hst]; exact htr⟩)
                · simp at h
          · next hcmp =>
            injection h with h'
            exact Or.inr (Or.inr ⟨hdc, by simpa using hcmp, h'⟩)

/-- Rebuilding a successful attribute match from one of the three tiers. -/
theorem cA_true_intro (x y : Attr) (s t : GoStr)
    (hoid : x.oid = y.oid)
    (hs : toString x.fullBytes = .ok s) (ht : toString y.fullBytes = .ok t)
    (hbr : (x.oid = oidDomainComponent ∧ y.oid = oidDomainComponent ∧
          x.tag = 22 ∧ y.tag = 22 ∧ compareByCaseInsensitiveExactMatch s t = true) ∨
       (¬(x.oid = oidDomainComponent ∧ y.oid = oidDomainComponent) ∧
          isComparableDirectoryString x.tag y.tag = true ∧
          ∃ u, stringPrepare s = .ok u ∧ stringPrepare t = .ok u) ∨
       (¬(x.oid = oidDomainComponent ∧ y.oid = oidDomainComponent) ∧
          isComparableDirectoryString x.tag y.tag = false ∧
          compareByBinaryComparison x.fullBytes y.fullBytes = true)) :
    compareAttribute x y = .ok true := by
  rw [compareAttribute_ok_strings x y s t hoid hs ht]
  rcases hbr with ⟨h1, h2, h3, h4, h5⟩ | ⟨hdc, hcmp, u, hu1, hu2⟩ | ⟨hdc, hcmp, hbin⟩
  · rw [if_pos ⟨h1, h2⟩, if_neg (by simp [h3, h4]), h5]
  · rw [if_neg hdc, if_pos hcmp]
    unfold compareByCaseIgnoreMatch
    rw [hu1, hu2]
    simp
  · rw [if_neg hdc, if_neg (by simp [hcmp]), hbin]

/-- A successful attribute match is symmetric. -/
theorem attrMatches_symm (x y : Attr) (h : attrMatches x y = true) :
    attrMatches y x = true := by
  rw [attrMatches, beq_iff_eq] at h ⊢
  obtain ⟨hoid, s, t, hs, ht, hbr⟩ := cA_true_elim x y h
  apply cA_true_intro y x t s hoid.symm ht hs
  rcases hbr with ⟨h1, h2, h3, h4, h5⟩ | ⟨hdc, hcmp, u, hu1, hu2⟩ | ⟨hdc, hcmp, hbin⟩
  · refine Or.inl ⟨h2, h1, h4, h3, ?_⟩
    unfold compareByCaseInsensitiveExactMatch equalFold at h5 ⊢
    rw [beq_iff_eq] at h5 ⊢
    exact h5.symm
  · refine Or.inr (Or.inl ⟨fun hab => hdc ⟨hab.2, hab.1⟩, ?_, u, hu2, hu1⟩)
    unfold isComparableDirectoryString at hcmp ⊢
    rw [Bool.and_comm] at hcmp
    exact hcmp
  · refine Or.inr (Or.inr ⟨fun hab => hdc ⟨hab.2, hab.1⟩, ?_, ?_⟩)
    · unfold isComparableDirectoryString at hcmp ⊢
      rw [Bool.and_comm] at hcmp
      exact hcmp
    · obtain ⟨heq, hne⟩ := binary_true_elim _ _ hbin
      rw [← heq]
      exact binary_refl _ hne

/-- Unpacking `isComparableDirectoryString`. -/
theorem comparable_elim (tx ty : Nat) (h : isComparableDirectoryString tx ty = true) :
    (tx = 12 ∨ tx = 19) ∧ (ty = 12 ∨ ty = 19) := by
  unfold isComparableDirectoryString at h
  simp at h
  exact h

/-- Building `isComparableDirectoryString`. -/
theorem comparable_intro (tx ty : Nat) (hx : tx = 12 ∨ tx = 19)
    (hy : ty = 12 ∨ ty = 19) : isComparableDirectoryString tx ty = true := by
  unfold isComparableDirectoryString
  rcases hx with h | h <;> rcases hy with h' | h' <;> simp [h, h']

/-- A successful attribute match is transitive on tag-consistent
attributes. -/
theorem attrMatches_trans (a b c : Attr)
    (ta : tagOk a = true) (tb : tagOk b = true) (tc : tagOk c = true)
    (h1 : attrMatches a b = true) (h2 : attrMatches b c = true) :
    attrMatches a c = true := by
  rw [attrMatches, beq_iff_eq] at h1 h2 ⊢
  obtain ⟨hoid1, s1, t1, hs1, ht1, hbr1⟩ := cA_true_elim a b h1
  obtain ⟨hoid2, s2, t2, hs2, ht2, hbr2⟩ := cA_true_elim b c h2
  have hbb : t1 = s2 := by
    rw [ht1] at hs2
    injection hs2
  subst hbb
  apply cA_true_intro a c s1 t2 (hoid1.trans hoid2) hs1 ht2
  rcases hbr1 with ⟨hdca, hdcb, hta, htb, hfold1⟩ |
      ⟨hndc1, hcmp1, u1, hu1s, hu1t⟩ | ⟨hndc1, hcmp1, hbin1⟩
  · rcases hbr2 with ⟨_, hdcc, _, htc, hfold2⟩ |
        ⟨hndc2, _, _, _, _⟩ | ⟨hndc2, _, _⟩
    · refine Or.inl ⟨hdca, hdcc, hta, htc, ?_⟩
      unfold compareByCaseInsensitiveExactMatch equalFold at hfold1 hfold2 ⊢
      rw [beq_iff_eq] at hfold1 hfold2 ⊢
      exact hfold1.trans hfold2
    · exact absurd ⟨hdcb, hoid2 ▸ hdcb⟩ hndc2
    · exact absurd ⟨hdcb, hoid2 ▸ hdcb⟩ hndc2
  · have hadc : ¬(a.oid = oidDomainComponent) := fun h => hndc1 ⟨h, hoid1 ▸ h⟩
    obtain ⟨hda, hdb⟩ := comparable_elim _ _ hcmp1
    rcases hbr2 with ⟨hdcb, _, _, _, _⟩ |
        ⟨hndc2, hcmp2, u2, hu2s, hu2t⟩ | ⟨hndc2, hcmp2, hbin2⟩
    · exact absurd (by rw [hoid1]; exact hdcb) hadc
    · obtain ⟨_, hdc⟩ := comparable_elim _ _ hcmp2
      have hu : u1 = u2 := by
        rw [hu1t] at hu2s
        injection hu2s
      refine Or.inr (Or.inl ⟨fun hac => hadc hac.1,
        comparable_intro _ _ hda hdc, u1, hu1s, ?_⟩)
      rw [hu]
      exact hu2t
    · obtain ⟨hfb, _⟩ := binary_true_elim _ _ hbin2
      have htagbc : b.tag = c.tag := tagOk_eq_tag b c tb tc hfb
      have hcm : isComparableDirectoryString b.tag c.tag = true :=
        comparable_intro _ _ hdb (by rw [← htagbc]; exact hdb)
      simp [hcm] at hcmp2
  · have hadc : ¬(a.oid = oidDomainComponent) := fun h => hndc1 ⟨h, hoid1 ▸ h⟩
    obtain ⟨hfb1, hne1⟩ := binary_true_elim _ _ hbin1
    have htagab : a.tag = b.tag := tagOk_eq_tag a b ta tb hfb1
    have had : ¬(a.tag = 12 ∨ a.tag = 19) := by
      intro hd
      have hcm : isComparableDirectoryString a.tag b.tag = true :=
        comparable_intro _ _ hd (by rw [← htagab]; exact hd)
      simp [hcm] at hcmp1
    rcases hbr2 with ⟨hdcb, _, _, _, _⟩ |
        ⟨hndc2, hcmp2, u2, hu2s, hu2t⟩ | ⟨hndc2, hcmp2, hbin2⟩
    · exact absurd (by rw [hoid1]; exact hdcb) hadc
    · obtain ⟨hdb, _⟩ := comparable_elim _ _ hcmp2
      exact absurd (by rw [htagab]; exact hdb) had
    · obtain ⟨hfb2, hne2⟩ := binary_true_elim _ _ hbin2
      refine Or.inr (Or.inr ⟨fun hac => hadc hac.1, ?_, ?_⟩)
      · have hnc : ¬(isComparableDirectoryString a.tag c.tag = true) := by
          intro hcm
          exact had (comparable_elim _ _ hcm).1
        simpa using hnc
      · rw [hfb1, hfb2]
        exact binary_refl _ (by rw [← hfb2]; exact hne2)

/-- Matched partners are interchangeable for every other left attribute. -/
theorem attrMatches_interchange (x x' y1 y2 : Attr)
    (tx : tagOk x = true) (tx' : tagOk x' = true)
    (t1 : tagOk y1 = true) (t2 : tagOk y2 = true)
    (h1 : attrMatches x y1 = true) (h2 : attrMatches x y2 = true) :
    attrMatches x' y1 = attrMatches x' y2 := by
  by_cases h : attrMatches x' y1 = true
  · have h' : attrMatches x' y2 = true :=
      attrMatches_trans x' x y2 tx' tx t2
        (attrMatches_trans x' y1 x tx' t1 tx h (attrMatches_symm x y1 h1)) h2
    rw [h, h']
  · have h' : ¬ attrMatches x' y2 = true := by
      intro hy2
      exact h (attrMatches_trans x' x y1 tx' tx t1
        (attrMatches_trans x' y2 x tx' t2 tx hy2 (attrMatches_symm x y2 h2)) h1)
    rw [Bool.not_eq_true] at h h'
    rw [h, h']

/-- One step of the scan when the index read succeeds. -/
theorem fmaGo_succ_some (atv : Attr) (n i : Nat) (rest : List Attr) (b : Attr)
    (hb : rest[i]? = some b) :
    fmaGo atv (n + 1) i rest =
      (match compareAttribute atv b with
       | .error e => .error e
       | .ok true =>
         (match removeAttribute i rest with
          | .error e => .error e
          | .ok rest2 => .ok (true, rest2))
       | .ok false => fmaGo atv n (i + 1) rest) := by
  conv => lhs; rw [fmaGo]
  rw [hb]

/-- Under error-freeness, the scan finds the first matching index at or
after `i` and removes it from the working copy. -/
theorem fmaGo_scan (atv : Attr) :
    ∀ (n i : Nat) (rest : List Attr), rest.length - i = n →
    (∀ b ∈ rest, ∃ v, compareAttribute atv b = .ok v) →
    fmaGo atv n i rest =
      (match (rest.drop i).findIdx? (attrMatches atv) with
       | none => .ok (false, rest)
       | some j => .ok (true, rest.eraseIdx (i + j))) := by
  intro n
  induction n with
  | zero =>
    intro i rest h0 hok
    rw [List.drop_eq_nil_of_le (by omega)]
    rfl
  | succ n ih =>
    intro i rest hn hok
    have hi : i < rest.length := by omega
    rw [fmaGo_succ_some atv n i rest rest[i] (List.getElem?_eq_getElem hi)]
    obtain ⟨v, hv⟩ := hok rest[i] (List.getElem_mem hi)
    rw [hv, List.drop_eq_getElem_cons hi, List.findIdx?_cons]
    cases v with
    | true =>
      have hm : attrMatches atv rest[i] = true := by
        simp [attrMatches, hv]
      rw [hm, if_pos rfl]
      unfold removeAttribute
      rw [if_neg (by omega)]
      simp
    | false =>
      have hm : attrMatches atv rest[i] = false := by
        simp [attrMatches, hv]
      rw [hm, if_neg (by simp), List.findIdx?_start_succ,
        ih (i + 1) rest (by omega) hok]
      cases hf : (rest.drop (i + 1)).findIdx? (attrMatches atv) with
      | none => rfl
      | some j =>
        have harith : i + 1 + j = i + (j + (0 + 1)) := by omega
        simp only [Option.map_some']
        rw [harith]

/-- `findMatchedAttribute` equals the pure first-match-and-remove scan under
error-freeness. -/
theorem fma_scan (atv : Attr) (r : List Attr)
    (hok : ∀ b ∈ r, ∃ v, compareAttribute atv b = .ok v) :
    findMatchedAttribute atv r =
      (match r.findIdx? (attrMatches atv) with
       | none => .ok (false, r)
       | some j => .ok (true, r.eraseIdx j)) := by
  have h := fmaGo_scan atv r.length 0 r (by omega) hok
  rw [findMatchedAttribute, h]
  simp

/-- `crdnGo` equals the pure greedy loop under error-freeness. -/
theorem crdnGo_greedy (xs : List Attr) :
    ∀ rest : List Attr,
    (∀ a ∈ xs, ∀ b ∈ rest, ∃ v, compareAttribute a b = .ok v) →
    crdnGo xs rest = .ok (greedyGo attrMatches xs rest) := by
  induction xs with
  | nil => intro rest _; rfl
  | cons x xs ih =>
    intro rest hok
    unfold crdnGo greedyGo
    rw [fma_scan x rest (hok x (List.mem_cons_self x xs))]
    cases hf : rest.findIdx? (attrMatches x) with
    | none => rfl
    | some j =>
      exact ih (rest.eraseIdx j) (fun a ha b hb =>
        hok a (List.mem_cons_of_mem x ha) b (List.eraseIdx_subset rest j hb))

/-- The index found by `findIdx?` is the first occurrence of the found
element, so erasing by that index is erasing that element. -/
theorem eraseIdx_eq_erase_of_findIdx? (p : Attr → Bool) :
    ∀ (l : List Attr) (i : Nat), l.findIdx? p = some i →
    ∃ a, a ∈ l ∧ p a = true ∧ l.eraseIdx i = l.erase a := by
  intro l
  induction l with
  | nil => intro i h; simp at h
  | cons x xs ih =>
    intro i h
    rw [List.findIdx?_cons] at h
    by_cases hx : p x = true
    · rw [if_pos hx] at h
      injection h with h'
      subst h'
      exact ⟨x, List.mem_cons_self x xs, hx,
        by rw [List.eraseIdx_cons_zero, List.erase_cons_head]⟩
    · rw [if_neg hx, List.findIdx?_start_succ] at h
      cases hf : xs.findIdx? p with
      | none => rw [hf] at h; simp at h
      | some j =>
        rw [hf] at h
        simp only [Option.map_some'] at h
        injection h with h'
        obtain ⟨a, hmem, hpa, he⟩ := ih j hf
        refine ⟨a, List.mem_cons_of_mem x hmem, hpa, ?_⟩
        have hxa : ¬ (x == a) = true := by
          simp only [beq_iff_eq]
          intro heq
          exact hx (by rw [heq]; exact hpa)
        rw [← h']
        have harith : j + (0 + 1) = j + 1 := by omega
        rw [harith, List.eraseIdx_cons_succ, List.erase_cons_tail hxa, he]

/-- Replacing the head of the pool by an attribute every scanned element
relates to identically does not change the greedy outcome. -/
theorem greedyGo_congr_head (r : Attr → Attr → Bool) (xs : List Attr) :
    ∀ (y1 y2 : Attr) (M : List Attr),
    (∀ x ∈ xs, r x y1 = r x y2) →
    greedyGo r xs (y1 :: M) = greedyGo r xs (y2 :: M) := by
  induction xs with
  | nil => intro y1 y2 M _; rfl
  | cons x xs ih =>
    intro y1 y2 M hpt
    unfold greedyGo
    rw [List.findIdx?_cons, List.findIdx?_cons, hpt x (List.mem_cons_self x xs)]
    by_cases hx : r x y2 = true
    · rw [if_pos hx]
      show greedyGo r xs ((y1 :: M).eraseIdx 0) = greedyGo r xs ((y2 :: M).eraseIdx 0)
      simp only [List.eraseIdx_cons_zero]
    · rw [if_neg hx, List.findIdx?_start_succ]
      cases hf : M.findIdx? (r x) with
      | none => rfl
      | some j =>
        simp only [Option.map_some']
        show greedyGo r xs ((y1 :: M).eraseIdx (j + (0 + 1))) =
          greedyGo r xs ((y2 :: M).eraseIdx (j + (0 + 1)))
        have harith : j + (0 + 1) = j + 1 := by omega
        rw [harith]
        simp only [List.eraseIdx_cons_succ]
        exact ih y1 y2 (M.eraseIdx j)
          (fun x' hx' => hpt x' (List.mem_cons_of_mem x hx'))

/-- Permuting the pool does not change the greedy outcome, provided matched
partners are interchangeable (which §4.3's equivalence rationale provides). -/
theorem greedyGo_perm (r : Attr → Attr → Bool) (P : Attr → Prop) :
    ∀ xs ys ys' : List Attr,
    (∀ x ∈ xs, ∀ x' ∈ xs, ∀ y1 y2 : Attr, P y1 → P y2 →
      r x y1 = true → r x y2 = true → r x' y1 = r x' y2) →
    ys.Perm ys' → (∀ b ∈ ys, P b) →
    greedyGo r xs ys = greedyGo r xs ys' := by
  intro xs
  induction xs with
  | nil => intro ys ys' _ _ _; rfl
  | cons x xs ih =>
    intro ys ys' hint hperm hP
    have hint' : ∀ a ∈ xs, ∀ a' ∈ xs, ∀ y1 y2 : Attr, P y1 → P y2 →
        r a y1 = true → r a y2 = true → r a' y1 = r a' y2 :=
      fun a ha a' ha' => hint a (List.mem_cons_of_mem x ha) a'
        (List.mem_cons_of_mem x ha')
    unfold greedyGo
    cases hf : ys.findIdx? (r x) with
    | none =>
      have hnone : ys'.findIdx? (r x) = none := by
        rw [List.findIdx?_eq_none_iff] at hf ⊢
        intro b hb
        exact hf b (hperm.mem_iff.mpr hb)
      rw [hnone]
    | some i =>
      obtain ⟨y1, hy1mem, hy1p, hy1erase⟩ := eraseIdx_eq_erase_of_findIdx? (r x) ys i hf
      cases hf' : ys'.findIdx? (r x) with
      | none =>
        rw [List.findIdx?_eq_none_iff] at hf'
        have hcontra := hf' y1 (hperm.mem_iff.mp hy1mem)
        rw [hy1p] at hcontra
        exact absurd hcontra (by simp)
      | some i' =>
        obtain ⟨y2, hy2mem', hy2p, hy2erase⟩ :=
          eraseIdx_eq_erase_of_findIdx? (r x) ys' i' hf'
        have hy2mem : y2 ∈ ys := hperm.mem_iff.mpr hy2mem'
        show greedyGo r xs (ys.eraseIdx i) = greedyGo r xs (ys'.eraseIdx i')
        rw [hy1erase, hy2erase]
        by_cases heq : y1 = y2
        · subst heq
          exact ih (ys.erase y1) (ys'.erase y1) hint' (hperm.erase y1)
            (fun b hb => hP b (List.erase_subset _ _ hb))
        · have hy2e : y2 ∈ ys.erase y1 :=
            (List.mem_erase_of_ne (fun h => heq h.symm)).mpr hy2mem
          have hy1e : y1 ∈ ys.erase y2 :=
            (List.mem_erase_of_ne heq).mpr hy1mem
          have step1 : greedyGo r xs (ys.erase y1) =
              greedyGo r xs (y2 :: (ys.erase y1).erase y2) :=
            ih _ _ hint' (List.perm_cons_erase hy2e)
              (fun b hb => hP b (List.erase_subset _ _ hb))
          have step2 : greedyGo r xs (y2 :: (ys.erase y1).erase y2) =
              greedyGo r xs (y1 :: (ys.erase y1).erase y2) :=
            greedyGo_congr_head r xs y2 y1 _
              (fun x' hx' => hint x (List.mem_cons_self x xs) x'
                (List.mem_cons_of_mem x hx') y2 y1 (hP y2 hy2mem) (hP y1 hy1mem)
                hy2p hy1p)
          have step3 : greedyGo r xs (y1 :: (ys.erase y1).erase y2) =
              greedyGo r xs (ys'.erase y2) := by
            apply ih _ _ hint'
            · have p1 : (ys'.erase y2).Perm (ys.erase y2) := (hperm.erase y2).symm
              have p2 : (ys.erase y2).Perm (y1 :: (ys.erase y2).erase y1) :=
                List.perm_cons_erase hy1e
              have p3 := p1.trans p2
              rw [List.erase_comm]
              exact p3.symm
            · intro b hb
              rcases List.mem_cons.mp hb with h | h
              · rw [h]
                exact hP y1 hy1mem
              · exact hP b (List.erase_subset _ _ (List.erase_subset _ _ h))
          rw [step1, step2, step3]

/-- The RDN matcher is invariant under permutation of the second RDN when
attributes are tag-consistent and all comparisons are error-free. -/
theorem crdn_perm (xr yr yr' : List Attr) (hperm : yr.Perm yr')
    (htagx : ∀ a ∈ xr, tagOk a = true) (htagy : ∀ b ∈ yr, tagOk b = true)
    (hok : ∀ a ∈ xr, ∀ b ∈ yr, ∃ v, compareAttribute a b = .ok v) :
    compareRelativeDistinguishedName xr yr =
      compareRelativeDistinguishedName xr yr' := by
  have hlen := hperm.length_eq
  unfold compareRelativeDistinguishedName
  rw [← hlen]
  by_cases hl : xr.length ≠ yr.length
  · rw [if_pos hl, if_pos hl]
  · rw [if_neg hl, if_neg hl]
    have hok' : ∀ a ∈ xr, ∀ b ∈ yr', ∃ v, compareAttribute a b = .ok v :=
      fun a ha b hb => hok a ha b (hperm.mem_iff.mpr hb)
    rw [crdnGo_greedy xr yr hok, crdnGo_greedy xr yr' hok']
    congr 1
    exact greedyGo_perm attrMatches (· ∈ yr) xr yr yr'
      (fun x hx x' hx' y1 y2 hy1 hy2 h1 h2 =>
        attrMatches_interchange x x' y1 y2 (htagx x hx) (htagx x' hx')
          (htagy y1 hy1) (htagy y2 hy2) h1 h2)
      hperm (fun _ hb => hb)

/-- Positional invariance of the DN loop under a permutation of the RDN at
one position. -/
theorem cdnGo_perm_at (L1 : List (List Attr)) :
    ∀ (X L2 : List (List Attr)) (yk yk' : List Attr),
    yk.Perm yk' →
    (∀ a ∈ X.getD L1.length [], tagOk a = true) →
    (∀ b ∈ yk, tagOk b = true) →
    (∀ a ∈ X.getD L1.length [], ∀ b ∈ yk, ∃ v, compareAttribute a b = .ok v) →
    cdnGo X (L1 ++ yk :: L2) = cdnGo X (L1 ++ yk' :: L2) := by
  induction L1 with
  | nil =>
    intro X L2 yk yk' hperm htagx htagy hok
    cases X with
    | nil => rfl
    | cons x xs =>
      simp only [List.length_nil, List.getD_cons_zero] at htagx hok
      show cdnGo (x :: xs) (yk :: L2) = cdnGo (x :: xs) (yk' :: L2)
      unfold cdnGo
      rw [crdn_perm x yk yk' hperm htagx htagy hok]
  | cons l L1 ih =>
    intro X L2 yk yk' hperm htagx htagy hok
    cases X with
    | nil => rfl
    | cons x xs =>
      simp only [List.length_cons, List.getD_cons_succ] at htagx hok
      show cdnGo (x :: xs) (l :: (L1 ++ yk :: L2)) =
        cdnGo (x :: xs) (l :: (L1 ++ yk' :: L2))
      unfold cdnGo
      cases hr : compareRelativeDistinguishedName x l with
      | error e => rfl
      | ok v =>
        cases v
        · rfl
        · exact ih xs L2 yk yk' hperm htagx htagy hok

/-- C3 (amended): when the attributes of the RDN of `x` at the permuted
position and of the original RDN of `y` are tag-consistent with their
encodings (as decoding guarantees) and every attribute comparison between
the two RDNs returns a boolean rather than an error, permuting the
attributes within that one RDN of `y` does not change the result of the DN
comparison. -/
theorem c3_amended (X L1 L2 : List (List Attr)) (yk yk' : List Attr)
    (hperm : yk.Perm yk')
    (htagx : ∀ a ∈ X.getD L1.length [], tagOk a = true)
    (htagy : ∀ b ∈ yk, tagOk b = true)
    (hok : ∀ a ∈ X.getD L1.length [], ∀ b ∈ yk,
      ∃ v, compareAttribute a b = .ok v) :
    compareDistinguishedName X (L1 ++ yk :: L2) =
      compareDistinguishedName X (L1 ++ yk' :: L2) := by
  unfold compareDistinguishedName
  have hl : (L1 ++ yk' :: L2).length = (L1 ++ yk :: L2).length := by
    simp [hperm.length_eq]
  rw [hl]
  by_cases hlen : X.length ≠ (L1 ++ yk :: L2).length
  · rw [if_pos hlen, if_pos hlen]
  · rw [if_neg hlen, if_neg hlen]
    exact cdnGo_perm_at L1 X L2 yk yk' hperm htagx htagy hok

/-- C3 counterexample: permuting the attributes inside the single RDN of `y`
changes the result of the whole comparison from the clean non-match
`(false, nil)` to a decode error, because the greedy scan reaches the
undecodable attribute only in one of the two orders. -/
theorem c3_counterexample :
    ([exBrokenIa5, exPrintableAbc] : List Attr).Perm
      [exPrintableAbc, exBrokenIa5] ∧
    compareDistinguishedName [[exPrintableAbc, exCountryJP]]
      [[exPrintableAbc, exBrokenIa5]] = .ok false ∧
    compareDistinguishedName [[exPrintableAbc, exCountryJP]]
      [[exBrokenIa5, exPrintableAbc]] = .error (.valueDecode .invalidIA5) ∧
    (compareDistinguishedName [[exPrintableAbc, exCountryJP]]
        [[exPrintableAbc, exBrokenIa5]] ==
      compareDistinguishedName [[exPrintableAbc, exCountryJP]]
        [[exBrokenIa5, exPrintableAbc]]) = false := by
  decide

/-- Witness for C3 (amended): swapping the two attributes of the single RDN
of `y` leaves the comparison result unchanged. -/
theorem c3_amended_witness :
    compareDistinguishedName [[exPrintableAbc, exUtf8Abc]]
        [[exUtf8Abc, exPrintableAbc]] =
      compareDistinguishedName [[exPrintableAbc, exUtf8Abc]]
        [[exPrintableAbc, exUtf8Abc]] :=
  c3_amended [[exPrintableAbc, exUtf8Abc]] [] []
    [exUtf8Abc, exPrintableAbc] [exPrintableAbc, exUtf8Abc]
    (by decide) (by decide) (by decide)
    (by
      intro a ha b hb
      fin_cases ha <;> fin_cases hb <;> exact ⟨true, by decide⟩)

end DnLib
